import Mathlib

/-!
# Verification of the openlime flask-jsondb record store

A shallow embedding of `dist/examples/flask-jsondb/openlimedb.py`: a JSON-file
backed CRUD store (class `DB` with `dbread`, `dbcreate`, `dbupdate`, `dbdelete`,
`dbwrite`) together with the POST route handler of the same file.

Modelling conventions:

* JSON values are the inductive `JVal`; a Python dict (a record) is an
  association list `List (String × JVal)` with Python dict semantics for
  subscription (`Record.get`) and item assignment (`Record.set`: assigning to
  an existing key keeps its position, a fresh key is appended at the end).
* Python `str(...)` on JSON-decoded values is `pyStr`; Python `==` between a
  decoded value and a `str` is `jeqStr` (only equal strings compare equal;
  `1 == "1"` is `False` in Python).
* The backing file is modelled by `FileContent`: `absent` (the path does not
  exist, `open` raises `FileNotFoundError`), `corrupt text` (the path holds
  `text` which `json.load` rejects with `JSONDecodeError`), or `stored rs`
  (the path holds `json.dumps(rs, indent=2)` for a list of records `rs`, as
  written by `DB.dbwrite`).  Files holding valid JSON that is not an array of
  objects are outside the modelled state space; no property here touches them.
* Python exceptions escaping a `DB` method (the `KeyError` raised by
  subscripting a dict that lacks the key) are the `.error` side of `Except`.
  In the source, each statement that raises leaves every prior mutation in
  place; in all the methods below the raising subscripts happen before any
  mutation, so an `.error` result leaves the state unchanged.
-/

set_option autoImplicit false

namespace OpenLimeDB

/-- JSON values as decoded by Python `json.load` (floats are not modelled;
none of the verified properties involves them). -/
inductive JVal where
  | jstr (s : String)
  | jint (n : Int)
  | jbool (b : Bool)
  | jnull
  | jarr (elems : List JVal)
  | jobj (fields : List (String × JVal))
  deriving Repr

mutual

/-- Decidable equality of JSON values (the automatic derivation does not
handle the nested lists). -/
def JVal.decEq : (a b : JVal) → Decidable (a = b)
  | .jstr s, .jstr t =>
    match String.decEq s t with
    | isTrue h => isTrue (by rw [h])
    | isFalse h => isFalse (fun he => h (by injection he))
  | .jint m, .jint n =>
    match Int.decEq m n with
    | isTrue h => isTrue (by rw [h])
    | isFalse h => isFalse (fun he => h (by injection he))
  | .jbool a, .jbool b =>
    match Bool.decEq a b with
    | isTrue h => isTrue (by rw [h])
    | isFalse h => isFalse (fun he => h (by injection he))
  | .jnull, .jnull => isTrue rfl
  | .jarr xs, .jarr ys =>
    match JVal.decEqList xs ys with
    | isTrue h => isTrue (by rw [h])
    | isFalse h => isFalse (fun he => h (by injection he))
  | .jobj fs, .jobj gs =>
    match JVal.decEqFields fs gs with
    | isTrue h => isTrue (by rw [h])
    | isFalse h => isFalse (fun he => h (by injection he))
  | .jstr _, .jint _ => isFalse nofun
  | .jstr _, .jbool _ => isFalse nofun
  | .jstr _, .jnull => isFalse nofun
  | .jstr _, .jarr _ => isFalse nofun
  | .jstr _, .jobj _ => isFalse nofun
  | .jint _, .jstr _ => isFalse nofun
  | .jint _, .jbool _ => isFalse nofun
  | .jint _, .jnull => isFalse nofun
  | .jint _, .jarr _ => isFalse nofun
  | .jint _, .jobj _ => isFalse nofun
  | .jbool _, .jstr _ => isFalse nofun
  | .jbool _, .jint _ => isFalse nofun
  | .jbool _, .jnull => isFalse nofun
  | .jbool _, .jarr _ => isFalse nofun
  | .jbool _, .jobj _ => isFalse nofun
  | .jnull, .jstr _ => isFalse nofun
  | .jnull, .jint _ => isFalse nofun
  | .jnull, .jbool _ => isFalse nofun
  | .jnull, .jarr _ => isFalse nofun
  | .jnull, .jobj _ => isFalse nofun
  | .jarr _, .jstr _ => isFalse nofun
  | .jarr _, .jint _ => isFalse nofun
  | .jarr _, .jbool _ => isFalse nofun
  | .jarr _, .jnull => isFalse nofun
  | .jarr _, .jobj _ => isFalse nofun
  | .jobj _, .jstr _ => isFalse nofun
  | .jobj _, .jint _ => isFalse nofun
  | .jobj _, .jbool _ => isFalse nofun
  | .jobj _, .jnull => isFalse nofun
  | .jobj _, .jarr _ => isFalse nofun

/-- Decidable equality of lists of JSON values. -/
def JVal.decEqList : (xs ys : List JVal) → Decidable (xs = ys)
  | [], [] => isTrue rfl
  | [], _ :: _ => isFalse nofun
  | _ :: _, [] => isFalse nofun
  | x :: xs, y :: ys =>
    match JVal.decEq x y with
    | isFalse h => isFalse (fun he => h (by injection he))
    | isTrue h1 =>
      match JVal.decEqList xs ys with
      | isTrue h2 => isTrue (by rw [h1, h2])
      | isFalse h2 => isFalse (fun he => h2 (by injection he))

/-- Decidable equality of JSON object field lists. -/
def JVal.decEqFields : (fs gs : List (String × JVal)) → Decidable (fs = gs)
  | [], [] => isTrue rfl
  | [], _ :: _ => isFalse nofun
  | _ :: _, [] => isFalse nofun
  | (k, v) :: fs, (l, w) :: gs =>
    match String.decEq k l with
    | isFalse h => isFalse (fun he => by injection he with h1 h2; injection h1 with hk hv; exact h hk)
    | isTrue hk =>
      match JVal.decEq v w with
      | isFalse h => isFalse (fun he => by injection he with h1 h2; injection h1 with hk hv; exact h hv)
      | isTrue hv =>
        match JVal.decEqFields fs gs with
        | isTrue ht => isTrue (by rw [hk, hv, ht])
        | isFalse h => isFalse (fun he => h (by injection he))

end

instance : DecidableEq JVal := JVal.decEq

mutual

/-- Python `repr` of a decoded JSON value (string escaping inside `repr` of a
string is not modelled; no verified property evaluates it on strings needing
escapes). -/
def pyRepr : JVal → String
  | .jstr s => "\x27" ++ s ++ "\x27"
  | .jint n => toString n
  | .jbool b => cond b "True" "False"
  | .jnull => "None"
  | .jarr xs => "[" ++ String.intercalate ", " (pyReprList xs) ++ "]"
  | .jobj fs => "\x7b" ++ String.intercalate ", " (pyReprFields fs) ++ "\x7d"

/-- `repr` of each element of a decoded JSON array. -/
def pyReprList : List JVal → List String
  | [] => []
  | x :: xs => pyRepr x :: pyReprList xs

/-- `repr` of each `key: value` entry of a decoded JSON object. -/
def pyReprFields : List (String × JVal) → List String
  | [] => []
  | (k, v) :: fs => ("\x27" ++ k ++ "\x27: " ++ pyRepr v) :: pyReprFields fs

end

/-- Python `str(...)` of a decoded JSON value: the identity on strings,
`repr` otherwise (for ints, bools and `None` the two coincide). -/
def pyStr : JVal → String
  | .jstr s => s
  | v => pyRepr v

/-- Python `v == s` for a decoded JSON value `v` and a `str` `s`: `True`
exactly when `v` is an equal string (`1 == "1"` is `False`). -/
def jeqStr (v : JVal) (s : String) : Bool :=
  match v with
  | .jstr t => t == s
  | _ => false

/-- A record: a Python dict as decoded from a JSON object, an association
list of fields in insertion order. -/
abbrev Record := List (String × JVal)

namespace Record

/-- Python `d[k]` on a dict: the value at key `k`, `none` when the key is
absent (the source then raises `KeyError`). -/
def get (r : Record) (k : String) : Option JVal :=
  match r with
  | [] => none
  | (k2, v) :: rest => if k2 = k then some v else get rest k

/-- Python `d[k] = v` on a dict: an existing key keeps its position and gets
the new value, a fresh key is appended at the end.  (Dict keys are unique,
so replacing the first occurrence is exact.) -/
def set (r : Record) (k : String) (v : JVal) : Record :=
  match r with
  | [] => [(k, v)]
  | (k2, w) :: rest => if k2 = k then (k, v) :: rest else (k2, w) :: set rest k v

end Record

/-- The `{status, message}` result dicts returned by the `DB` methods. -/
structure DBResult where
  status : String
  message : String
  deriving Repr, DecidableEq

/-- Python exceptions that can escape a `DB` method in the modelled state
space: `KeyError(k)` from subscripting a dict lacking key `k`. -/
inductive PyErr where
  | keyError (k : String)
  deriving Repr, DecidableEq

/-- `str(...)` of the exception, as interpolated by the route handlers:
`str(KeyError("id"))` is `"'id'"`. -/
def pyErrMessage : PyErr → String
  | .keyError k => "\x27" ++ k ++ "\x27"

/-- The state of the backing file (see the module docstring). -/
inductive FileContent where
  | absent
  | corrupt (text : String)
  | stored (records : List Record)
  deriving Repr, DecidableEq

/-- The store: the in-memory collection `self.db` plus the backing file. -/
structure DB where
  db : List Record
  file : FileContent
  deriving Repr, DecidableEq

namespace DB

/-- `DB.__init__`: `json.load` the backing file, falling back to `[]` on
`FileNotFoundError` or `JSONDecodeError`.  The file itself is not touched. -/
def init (f : FileContent) : DB :=
  match f with
  | .stored rs => { db := rs, file := f }
  | _ => { db := [], file := f }

/-- `DB.dbwrite`: `json.dump(self.db, f, indent=2)` — overwrite the backing
file with the serialized collection. -/
def dbwrite (s : DB) : DB :=
  { s with file := .stored s.db }

/-- `DB.dbread`: return the in-memory collection. -/
def dbread (s : DB) : List Record :=
  s.db

/-- `DB.dbcreate`: coerce `item['id']` to its string form (raising `KeyError`
when `item` has no `'id'`), append the item, persist, report ok. -/
def dbcreate (s : DB) (item : Record) : Except PyErr (DB × DBResult) :=
  match Record.get item "id" with
  | none => .error (.keyError "id")
  | some v =>
    let item2 := Record.set item "id" (.jstr (pyStr v))
    .ok (dbwrite { s with db := s.db ++ [item2] },
         ⟨"ok", "Annotation created successfully"⟩)

/-- The linear scan shared by `dbupdate` and `dbdelete`: the index of the
first record whose `record['id'] == str(id)`; subscripting a record without
an `'id'` key raises `KeyError` before any later record is examined. -/
def findIdx (db : List Record) (sid : String) : Except PyErr (Option Nat) :=
  match db with
  | [] => .ok none
  | r :: rest =>
    match Record.get r "id" with
    | none => .error (.keyError "id")
    | some v =>
      if jeqStr v sid then .ok (some 0)
      else
        match findIdx rest sid with
        | .ok none => .ok none
        | .ok (some i) => .ok (some (i + 1))
        | .error e => .error e

/-- `DB.dbupdate`: scan for the first record matching `str(id)`; if found,
force `item['id'] = str(id)`, replace the record at that index, persist,
report ok; otherwise report err without touching anything. -/
def dbupdate (s : DB) (id : JVal) (item : Record) : Except PyErr (DB × DBResult) :=
  match findIdx s.db (pyStr id) with
  | .error e => .error e
  | .ok (some idx) =>
    let item2 := Record.set item "id" (.jstr (pyStr id))
    .ok (dbwrite { s with db := s.db.set idx item2 },
         ⟨"ok", "Annotation updated successfully"⟩)
  | .ok none =>
    .ok (s, ⟨"err", "Error in updating annotation"⟩)

/-- `DB.dbdelete`: scan for the first record matching `str(id)`; if found,
pop it, persist, report ok; otherwise report err without touching anything. -/
def dbdelete (s : DB) (id : JVal) : Except PyErr (DB × DBResult) :=
  match findIdx s.db (pyStr id) with
  | .error e => .error e
  | .ok (some idx) =>
    .ok (dbwrite { s with db := s.db.eraseIdx idx },
         ⟨"ok", "Annotation deleted successfully"⟩)
  | .ok none =>
    .ok (s, ⟨"err", "Error in deleting annotation"⟩)

end DB

/-- Whether `record['id'] == str(id)` would hold for this record without
raising: the record has an `'id'` key whose value is the string `sid`. -/
def matchesId (r : Record) (sid : String) : Bool :=
  match Record.get r "id" with
  | some v => jeqStr v sid
  | none => false

/-- The index of the first record matching `sid`, ignoring exceptions: the
pure specification of the scan, equal to `DB.findIdx` on collections whose
records all carry an `'id'` key (`findIdx_eq_firstMatch`). -/
def firstMatch (db : List Record) (sid : String) : Option Nat :=
  match db with
  | [] => none
  | r :: rest =>
    if matchesId r sid then some 0
    else (firstMatch rest sid).map (· + 1)

/-- Every record of the collection carries an `'id'` key — the data-model
well-formedness under which the scans cannot raise. -/
def allHaveId (db : List Record) : Prop :=
  ∀ r ∈ db, (Record.get r "id").isSome

instance : DecidablePred allHaveId := fun db =>
  inferInstanceAs (Decidable (∀ r ∈ db, (Record.get r "id").isSome))

/-- The string form of a record's `id` field, when present. -/
def idStrOf (r : Record) : Option String :=
  (Record.get r "id").map pyStr

/-- No two records of the collection carry the same `id` string. -/
def uniqueIds (db : List Record) : Prop :=
  db.Pairwise (fun r1 r2 => idStrOf r1 ≠ idStrOf r2)

instance : DecidablePred uniqueIds := fun db =>
  inferInstanceAs (Decidable (db.Pairwise _))

/-- A mutation request against the store, as issued by the HTTP layer. -/
inductive Op where
  | create (item : Record)
  | update (id : JVal) (item : Record)
  | delete (id : JVal)

/-- Dispatch one mutation to the corresponding `DB` method. -/
def applyOp (s : DB) : Op → Except PyErr (DB × DBResult)
  | .create item => DB.dbcreate s item
  | .update id item => DB.dbupdate s id item
  | .delete id => DB.dbdelete s id

/-- The store state after one request: a raised exception is caught at the
route-handler boundary and the store keeps its previous state (in every
method the raising subscripts precede any mutation). -/
def stepOp (s : DB) (op : Op) : DB :=
  match applyOp s op with
  | .ok (s2, _) => s2
  | .error _ => s

/-- The store state after a sequence of requests. -/
def runOps (s : DB) (ops : List Op) : DB :=
  ops.foldl stepOp s

/-- HTTP responses produced by the route handlers of `openlimedb.py`:
a 200 JSON body, a 400 JSON body, or a 500 with the exception text. -/
inductive HttpResponse where
  | jsonOk (body : DBResult)
  | jsonErr400 (body : DBResult)
  | jsonErr500 (message : String)
  deriving Repr, DecidableEq

/-- The POST route handler (`openlimedb.py`): call `dbcreate` with the
request body; map a result with `status == "err"` to HTTP 400, any other
result to HTTP 200, and a raised exception to HTTP 500 with the exception
text, the store keeping its previous state. -/
def createAnnotationHandler (s : DB) (body : Record) : DB × HttpResponse :=
  match DB.dbcreate s body with
  | .ok (s2, res) =>
    if res.status == "err" then (s2, .jsonErr400 res) else (s2, .jsonOk res)
  | .error e => (s, .jsonErr500 (pyErrMessage e))

/-!
## Heap-level model of `dbcreate` / `dbupdate`

Python dicts are heap objects passed by reference: `item['id'] = str(...)`
mutates the caller's dict, and `self.db.append(item)` / `self.db[idx] = item`
store that same object, not a copy.  To state this aliasing, the same two
methods are re-translated against an explicit heap: `HStore.heap` is an
arena of dict objects, an address (index into the arena) stands for a Python
reference, and the collection `HStore.db` is a list of addresses.
-/

/-- The store with the heap made explicit: `heap` is the arena of dict
objects, `db` the collection as a list of addresses into it. -/
structure HStore where
  heap : List Record
  db : List Nat

/-- Dereference an address (in any state reachable from Python, every
address stored in `db` is in range, so the `[]` default is never read). -/
def deref (heap : List Record) (a : Nat) : Record :=
  heap.getD a []

/-- The scan of `dbupdate` / `dbdelete` over a collection of references:
each record is read through the heap. -/
def hfindIdx (heap : List Record) (addrs : List Nat) (sid : String) : Except PyErr (Option Nat) :=
  match addrs with
  | [] => .ok none
  | a :: rest =>
    match Record.get (deref heap a) "id" with
    | none => .error (.keyError "id")
    | some v =>
      if jeqStr v sid then .ok (some 0)
      else
        match hfindIdx heap rest sid with
        | .ok none => .ok none
        | .ok (some i) => .ok (some (i + 1))
        | .error e => .error e

/-- `DB.dbcreate` at heap level: the argument is a reference `a`;
`item['id'] = str(item['id'])` mutates the object at `a` in place, and
`self.db.append(item)` appends the reference `a` itself. -/
def hcreate (st : HStore) (a : Nat) : Except PyErr (HStore × DBResult) :=
  match Record.get (deref st.heap a) "id" with
  | none => .error (.keyError "id")
  | some v =>
    let item2 := Record.set (deref st.heap a) "id" (.jstr (pyStr v))
    .ok ({ heap := st.heap.set a item2, db := st.db ++ [a] },
         ⟨"ok", "Annotation created successfully"⟩)

/-- `DB.dbupdate` at heap level: on a hit at position `idx`,
`item['id'] = str(id)` mutates the object at `a` in place and
`self.db[idx] = item` stores the reference `a` itself at that position. -/
def hupdate (st : HStore) (id : JVal) (a : Nat) : Except PyErr (HStore × DBResult) :=
  match hfindIdx st.heap st.db (pyStr id) with
  | .error e => .error e
  | .ok (some idx) =>
    let item2 := Record.set (deref st.heap a) "id" (.jstr (pyStr id))
    .ok ({ heap := st.heap.set a item2, db := st.db.set idx a },
         ⟨"ok", "Annotation updated successfully"⟩)
  | .ok none =>
    .ok (st, ⟨"err", "Error in updating annotation"⟩)

/-! ## Auxiliary lemmas about dict operations and the scans -/

/-- Assigning `d[k] = v` makes a later `d[k]` read back `v`. -/
theorem Record.get_set_self (r : Record) (k : String) (v : JVal) :
    Record.get (Record.set r k v) k = some v := by
  induction r with
  | nil => simp [Record.set, Record.get]
  | cons p rest ih =>
    obtain ⟨k2, w⟩ := p
    by_cases h : k2 = k
    · simp [Record.set, Record.get, h]
    · simpa [Record.set, Record.get, h] using ih

/-- Assigning `d[k] = v` leaves every other key unchanged. -/
theorem Record.get_set_ne (r : Record) (k k2 : String) (v : JVal) (hne : k2 ≠ k) :
    Record.get (Record.set r k v) k2 = Record.get r k2 := by
  induction r with
  | nil => simp [Record.set, Record.get, Ne.symm hne]
  | cons p rest ih =>
    obtain ⟨k3, w⟩ := p
    by_cases h : k3 = k
    · subst h
      simp [Record.set, Record.get, Ne.symm hne]
    · by_cases h2 : k3 = k2
      · subst h2
        simp [Record.set, Record.get, h]
      · simpa [Record.set, Record.get, h, h2] using ih

/-- On a collection whose records all carry an `'id'` key, the raising scan
agrees with its pure specification `firstMatch`. -/
theorem findIdx_eq_firstMatch (db : List Record) (sid : String)
    (hids : allHaveId db) :
    DB.findIdx db sid = .ok (firstMatch db sid) := by
  induction db with
  | nil => rfl
  | cons r rest ih =>
    have hr : (Record.get r "id").isSome := hids r (List.mem_cons_self r rest)
    obtain ⟨v, hv⟩ := Option.isSome_iff_exists.mp hr
    have hrest : allHaveId rest := fun q hq => hids q (List.mem_cons_of_mem r hq)
    have hm : matchesId r sid = jeqStr v sid := by simp [matchesId, hv]
    by_cases hj : jeqStr v sid = true
    · simp [DB.findIdx, firstMatch, hv, hj, hm]
    · have hj2 : jeqStr v sid = false := by revert hj; cases jeqStr v sid <;> simp
      cases hfm : firstMatch rest sid <;>
        simp [DB.findIdx, firstMatch, hv, hj2, hm, ih hrest, hfm]

/-- The scan misses exactly when no record matches. -/
theorem firstMatch_eq_none_iff (db : List Record) (sid : String) :
    firstMatch db sid = none ↔ ∀ r ∈ db, matchesId r sid = false := by
  induction db with
  | nil => simp [firstMatch]
  | cons r rest ih =>
    by_cases h : matchesId r sid = true
    · simp [firstMatch, h]
    · have h2 : matchesId r sid = false := by revert h; cases matchesId r sid <;> simp
      cases hfm : firstMatch rest sid <;>
        simp_all [firstMatch, h2, hfm]

/-- A matching record guarantees the scan hits some index. -/
theorem firstMatch_isSome_of_exists (db : List Record) (sid : String)
    (hex : ∃ r ∈ db, matchesId r sid = true) :
    ∃ i, firstMatch db sid = some i := by
  cases hfm : firstMatch db sid with
  | some i => exact ⟨i, rfl⟩
  | none =>
    obtain ⟨r, hr, hm⟩ := hex
    have := (firstMatch_eq_none_iff db sid).mp hfm r hr
    simp [hm] at this

/-- The index returned by the scan is in range. -/
theorem firstMatch_lt_length (db : List Record) (sid : String) (i : Nat)
    (h : firstMatch db sid = some i) : i < db.length := by
  induction db generalizing i with
  | nil => simp [firstMatch] at h
  | cons r rest ih =>
    by_cases hm : matchesId r sid = true
    · simp [firstMatch, hm] at h
      simp [← h]
    · have h2 : matchesId r sid = false := by revert hm; cases matchesId r sid <;> simp
      simp [firstMatch, h2] at h
      obtain ⟨j, hj, rfl⟩ := h
      have := ih j hj
      simp only [List.length_cons]
      omega

/-- The number of records of the collection matching `sid`. -/
def countMatches (db : List Record) (sid : String) : Nat :=
  (db.filter (fun r => matchesId r sid)).length

/-- Erasing the record found by the scan drops the match count by one. -/
theorem countMatches_eraseIdx (db : List Record) (sid : String) (i : Nat)
    (h : firstMatch db sid = some i) :
    countMatches (db.eraseIdx i) sid + 1 = countMatches db sid := by
  induction db generalizing i with
  | nil => simp [firstMatch] at h
  | cons r rest ih =>
    by_cases hm : matchesId r sid = true
    · have : i = 0 := by simp [firstMatch, hm] at h; omega
      subst this
      simp [List.eraseIdx, countMatches, List.filter, hm]
    · have h2 : matchesId r sid = false := by revert hm; cases matchesId r sid <;> simp
      simp [firstMatch, h2] at h
      obtain ⟨j, hj, rfl⟩ := h
      have := ih j hj
      simpa [List.eraseIdx, countMatches, List.filter, h2] using this

/-- Zero matches means every record fails the match test. -/
theorem countMatches_eq_zero_iff (db : List Record) (sid : String) :
    countMatches db sid = 0 ↔ ∀ r ∈ db, matchesId r sid = false := by
  simp [countMatches, List.length_eq_zero, List.filter_eq_nil_iff]

/-- Every record of the collection carries a string-valued `'id'` field. -/
def stringIds (db : List Record) : Prop :=
  ∀ r ∈ db, ∃ t, Record.get r "id" = some (.jstr t)

/-- One request preserves `stringIds`: every record a mutation stores has
its `'id'` freshly set to a string, and errors leave the state unchanged. -/
theorem stringIds_stepOp (s : DB) (op : Op) (h : stringIds s.db) :
    stringIds (stepOp s op).db := by
  cases op with
  | create item =>
    cases hg : Record.get item "id" with
    | none => simpa [stepOp, applyOp, DB.dbcreate, hg] using h
    | some v =>
      simp only [stepOp, applyOp, DB.dbcreate, hg, DB.dbwrite]
      intro r hr
      rcases List.mem_append.mp hr with hr1 | hr2
      · exact h r hr1
      · have he : r = Record.set item "id" (.jstr (pyStr v)) := by simpa using hr2
        exact ⟨pyStr v, he ▸ Record.get_set_self item "id" (.jstr (pyStr v))⟩
  | update id item =>
    cases hfi : DB.findIdx s.db (pyStr id) with
    | error e => simpa [stepOp, applyOp, DB.dbupdate, hfi] using h
    | ok idx? =>
      cases idx? with
      | none => simpa [stepOp, applyOp, DB.dbupdate, hfi] using h
      | some idx =>
        simp only [stepOp, applyOp, DB.dbupdate, hfi, DB.dbwrite]
        intro r hr
        rcases List.mem_or_eq_of_mem_set hr with hr1 | hr2
        · exact h r hr1
        · exact ⟨pyStr id, hr2 ▸ Record.get_set_self item "id" (.jstr (pyStr id))⟩
  | delete id =>
    cases hfi : DB.findIdx s.db (pyStr id) with
    | error e => simpa [stepOp, applyOp, DB.dbdelete, hfi] using h
    | ok idx? =>
      cases idx? with
      | none => simpa [stepOp, applyOp, DB.dbdelete, hfi] using h
      | some idx =>
        simp only [stepOp, applyOp, DB.dbdelete, hfi, DB.dbwrite]
        intro r hr
        exact h r (List.mem_of_mem_eraseIdx hr)

/-- Request sequences preserve `stringIds`. -/
theorem stringIds_runOps (s : DB) (ops : List Op) (h : stringIds s.db) :
    stringIds (runOps s ops).db := by
  induction ops generalizing s with
  | nil => simpa [runOps] using h
  | cons op ops ih => exact ih (stepOp s op) (stringIds_stepOp s op h)

/-! ## The claims -/

/-- C1: for every collection and every id, if some record in the collection
has an `id` field equal to the string form of `id` (the collection being
well-formed: every record carries an `id` key, without which the scan would
raise), then `dbupdate` replaces the first such record — at index `i`, the
index found by the scan — wholesale by the given record with its `id` forced
to the string form of `id`, at the same position, leaves every other record
unchanged, persists the collection to the backing file, and returns status
ok. -/
theorem c1_update_found_replaces_first (s : DB) (id : JVal) (item : Record)
    (hids : allHaveId s.db)
    (hex : ∃ r ∈ s.db, matchesId r (pyStr id) = true) :
    ∃ i, firstMatch s.db (pyStr id) = some i ∧
      DB.dbupdate s id item =
        .ok (⟨s.db.set i (Record.set item "id" (.jstr (pyStr id))),
              .stored (s.db.set i (Record.set item "id" (.jstr (pyStr id))))⟩,
             ⟨"ok", "Annotation updated successfully"⟩) ∧
      ∀ j, j ≠ i →
        (s.db.set i (Record.set item "id" (.jstr (pyStr id))))[j]? = s.db[j]? := by
  obtain ⟨i, hi⟩ := firstMatch_isSome_of_exists s.db (pyStr id) hex
  refine ⟨i, hi, ?_, ?_⟩
  · simp [DB.dbupdate, findIdx_eq_firstMatch s.db (pyStr id) hids, hi, DB.dbwrite]
  · intro j hj
    exact List.getElem?_set_ne (Ne.symm hj)

/-- Witness for C1 at a concrete store. -/
theorem c1_witness :
    ∃ i, firstMatch [[("id", JVal.jstr "1"), ("label", JVal.jstr "cat")]] (pyStr (.jstr "1")) = some i ∧
      DB.dbupdate ⟨[[("id", JVal.jstr "1"), ("label", JVal.jstr "cat")]],
                   .stored [[("id", JVal.jstr "1"), ("label", JVal.jstr "cat")]]⟩
          (.jstr "1") [("label", JVal.jstr "dog")] =
        .ok (⟨[[("id", JVal.jstr "1"), ("label", JVal.jstr "cat")]].set i
                (Record.set [("label", JVal.jstr "dog")] "id" (.jstr (pyStr (.jstr "1")))),
              .stored ([[("id", JVal.jstr "1"), ("label", JVal.jstr "cat")]].set i
                (Record.set [("label", JVal.jstr "dog")] "id" (.jstr (pyStr (.jstr "1")))))⟩,
             ⟨"ok", "Annotation updated successfully"⟩) ∧
      ∀ j, j ≠ i →
        ([[("id", JVal.jstr "1"), ("label", JVal.jstr "cat")]].set i
            (Record.set [("label", JVal.jstr "dog")] "id" (.jstr (pyStr (.jstr "1")))))[j]? =
          [[("id", JVal.jstr "1"), ("label", JVal.jstr "cat")]][j]? :=
  c1_update_found_replaces_first
    ⟨[[("id", JVal.jstr "1"), ("label", JVal.jstr "cat")]],
     .stored [[("id", JVal.jstr "1"), ("label", JVal.jstr "cat")]]⟩
    (.jstr "1") [("label", JVal.jstr "dog")] (by decide) (by decide)

/-- C2: for every store and every record carrying an `id` field, `dbcreate`
coerces the `id` to its string form, appends the record at the end of the
collection, persists the entire collection, and returns a success status —
unconditionally, so no collision check is performed and duplicate ids are
permitted; when the id was not already present, the collection afterwards
contains the stored record exactly once, at the last position. -/
theorem c2_create_appends (s : DB) (item : Record) (v : JVal)
    (hid : Record.get item "id" = some v) :
    DB.dbcreate s item =
      .ok (⟨s.db ++ [Record.set item "id" (.jstr (pyStr v))],
            .stored (s.db ++ [Record.set item "id" (.jstr (pyStr v))])⟩,
           ⟨"ok", "Annotation created successfully"⟩) ∧
    ((∀ r ∈ s.db, matchesId r (pyStr v) = false) →
      ((s.db ++ [Record.set item "id" (.jstr (pyStr v))]).filter
          (fun r => decide (r = Record.set item "id" (.jstr (pyStr v))))).length = 1 ∧
      (s.db ++ [Record.set item "id" (.jstr (pyStr v))]).getLast? =
        some (Record.set item "id" (.jstr (pyStr v)))) := by
  constructor
  · simp [DB.dbcreate, hid, DB.dbwrite]
  · intro hfresh
    constructor
    · rw [List.filter_append]
      have h1 : s.db.filter
          (fun r => decide (r = Record.set item "id" (.jstr (pyStr v)))) = [] := by
        rw [List.filter_eq_nil_iff]
        intro r hr hc
        have he : r = Record.set item "id" (.jstr (pyStr v)) := of_decide_eq_true hc
        have hm := hfresh r hr
        rw [he] at hm
        simp [matchesId, Record.get_set_self, jeqStr] at hm
      rw [h1]
      simp
    · exact List.getLast?_concat _

/-- Witness for C2 at a concrete store: `create({id: 1})` on the empty
store. -/
theorem c2_witness :
    DB.dbcreate ⟨[], .absent⟩ [("id", JVal.jint 1)] =
      .ok (⟨[] ++ [Record.set [("id", JVal.jint 1)] "id" (.jstr (pyStr (.jint 1)))],
            .stored ([] ++ [Record.set [("id", JVal.jint 1)] "id" (.jstr (pyStr (.jint 1)))])⟩,
           ⟨"ok", "Annotation created successfully"⟩) :=
  (c2_create_appends ⟨[], .absent⟩ [("id", JVal.jint 1)] (.jint 1) rfl).1

/-- C3: for every well-formed collection and every id whose string form
matches no record, `dbupdate` returns status err and hands back the store
exactly as it was — collection and backing file both untouched, so no write
happens on the not-found path. -/
theorem c3_update_notfound (s : DB) (id : JVal) (item : Record)
    (hids : allHaveId s.db)
    (hnone : ∀ r ∈ s.db, matchesId r (pyStr id) = false) :
    DB.dbupdate s id item = .ok (s, ⟨"err", "Error in updating annotation"⟩) := by
  have h0 : firstMatch s.db (pyStr id) = none := (firstMatch_eq_none_iff _ _).mpr hnone
  simp [DB.dbupdate, findIdx_eq_firstMatch s.db (pyStr id) hids, h0]

/-- Witness for C3 at a concrete store. -/
theorem c3_witness :
    DB.dbupdate ⟨[[("id", JVal.jstr "1")]], .stored [[("id", JVal.jstr "1")]]⟩
        (.jstr "2") [("label", JVal.jstr "dog")] =
      .ok (⟨[[("id", JVal.jstr "1")]], .stored [[("id", JVal.jstr "1")]]⟩,
           ⟨"err", "Error in updating annotation"⟩) :=
  c3_update_notfound ⟨[[("id", JVal.jstr "1")]], .stored [[("id", JVal.jstr "1")]]⟩
    (.jstr "2") [("label", JVal.jstr "dog")] (by decide) (by decide)

/-- C4: for every well-formed collection and every id: when the scan finds a
first match at index `i`, `dbdelete` removes exactly that record (the
remaining sequence is `eraseIdx i`, so later records — including any other
record with the same id — remain), decrements the length by one, persists,
and returns status ok; when no record matches, it returns status err and
hands back the store unchanged with no write. -/
theorem c4_delete (s : DB) (id : JVal) (hids : allHaveId s.db) :
    (∀ i, firstMatch s.db (pyStr id) = some i →
      DB.dbdelete s id =
        .ok (⟨s.db.eraseIdx i, .stored (s.db.eraseIdx i)⟩,
             ⟨"ok", "Annotation deleted successfully"⟩) ∧
      (s.db.eraseIdx i).length + 1 = s.db.length) ∧
    (firstMatch s.db (pyStr id) = none →
      DB.dbdelete s id = .ok (s, ⟨"err", "Error in deleting annotation"⟩)) := by
  constructor
  · intro i hi
    refine ⟨?_, ?_⟩
    · simp [DB.dbdelete, findIdx_eq_firstMatch s.db (pyStr id) hids, hi, DB.dbwrite]
    · have hlt := firstMatch_lt_length s.db (pyStr id) i hi
      have := List.length_eraseIdx_add_one hlt
      omega
  · intro h0
    simp [DB.dbdelete, findIdx_eq_firstMatch s.db (pyStr id) hids, h0]

/-- Witness for C4 at a concrete store, exercising both branches. -/
theorem c4_witness :
    (DB.dbdelete ⟨[[("id", JVal.jstr "1")]], .stored [[("id", JVal.jstr "1")]]⟩ (.jstr "1") =
      .ok (⟨[[("id", JVal.jstr "1")]].eraseIdx 0, .stored ([[("id", JVal.jstr "1")]].eraseIdx 0)⟩,
           ⟨"ok", "Annotation deleted successfully"⟩) ∧
     ([[("id", JVal.jstr "1")]].eraseIdx 0).length + 1 = [[("id", JVal.jstr "1")]].length) ∧
    (DB.dbdelete ⟨[[("id", JVal.jstr "1")]], .stored [[("id", JVal.jstr "1")]]⟩ (.jstr "2") =
      .ok (⟨[[("id", JVal.jstr "1")]], .stored [[("id", JVal.jstr "1")]]⟩,
           ⟨"err", "Error in deleting annotation"⟩)) :=
  ⟨(c4_delete ⟨[[("id", JVal.jstr "1")]], .stored [[("id", JVal.jstr "1")]]⟩
      (.jstr "1") (by decide)).1 0 (by decide),
   (c4_delete ⟨[[("id", JVal.jstr "1")]], .stored [[("id", JVal.jstr "1")]]⟩
      (.jstr "2") (by decide)).2 (by decide)⟩

/-- C5: persistence round-trip — after any sequence of requests, if the next
mutation succeeds with status ok (so it performed the write), constructing a
fresh store from the backing file it left behind yields a collection equal
to the in-memory collection at that moment. -/
theorem c5_persistence_roundtrip (s0 : DB) (ops : List Op) (op : Op)
    (s2 : DB) (res : DBResult)
    (happ : applyOp (runOps s0 ops) op = .ok (s2, res))
    (hok : res.status = "ok") :
    (DB.init s2.file).db = s2.db := by
  set s1 := runOps s0 ops with hs1
  cases op with
  | create item =>
    cases hg : Record.get item "id" with
    | none => simp [applyOp, DB.dbcreate, hg] at happ
    | some v =>
      simp [applyOp, DB.dbcreate, hg, DB.dbwrite] at happ
      obtain ⟨hs2, hres⟩ := happ
      rw [← hs2]
      rfl
  | update id item =>
    cases hfi : DB.findIdx s1.db (pyStr id) with
    | error e => simp [applyOp, DB.dbupdate, hfi] at happ
    | ok idx? =>
      cases idx? with
      | some idx =>
        simp [applyOp, DB.dbupdate, hfi, DB.dbwrite] at happ
        obtain ⟨hs2, hres⟩ := happ
        rw [← hs2]
        rfl
      | none =>
        simp [applyOp, DB.dbupdate, hfi] at happ
        obtain ⟨hs2, hres⟩ := happ
        rw [← hres] at hok
        exact absurd hok (by decide)
  | delete id =>
    cases hfi : DB.findIdx s1.db (pyStr id) with
    | error e => simp [applyOp, DB.dbdelete, hfi] at happ
    | ok idx? =>
      cases idx? with
      | some idx =>
        simp [applyOp, DB.dbdelete, hfi, DB.dbwrite] at happ
        obtain ⟨hs2, hres⟩ := happ
        rw [← hs2]
        rfl
      | none =>
        simp [applyOp, DB.dbdelete, hfi] at happ
        obtain ⟨hs2, hres⟩ := happ
        rw [← hres] at hok
        exact absurd hok (by decide)

/-- Witness for C5: a single successful create on the empty store. -/
theorem c5_witness :
    (DB.init (DB.mk [[("id", JVal.jstr "1")]] (.stored [[("id", JVal.jstr "1")]])).file).db =
      (DB.mk [[("id", JVal.jstr "1")]] (.stored [[("id", JVal.jstr "1")]])).db :=
  c5_persistence_roundtrip ⟨[], .absent⟩ [] (.create [("id", JVal.jstr "1")])
    ⟨[[("id", JVal.jstr "1")]], .stored [[("id", JVal.jstr "1")]]⟩
    ⟨"ok", "Annotation created successfully"⟩ rfl rfl

/-- C6: constructing a store against any backing file that cannot be read or
parsed — the path absent, or holding any unparseable text — yields the empty
collection without raising and without touching the file; absent and corrupt
files are treated identically. -/
theorem c6_load_resilience (f : FileContent) (h : ∀ rs, f ≠ .stored rs) :
    DB.init f = ⟨[], f⟩ := by
  cases f with
  | absent => rfl
  | corrupt text => rfl
  | stored rs => exact absurd rfl (h rs)

/-- Witness for C6: an absent file and a corrupt file. -/
theorem c6_witness :
    DB.init .absent = ⟨[], .absent⟩ ∧
    DB.init (.corrupt "not json") = ⟨[], .corrupt "not json"⟩ :=
  ⟨c6_load_resilience .absent (fun _ h => FileContent.noConfusion h),
   c6_load_resilience (.corrupt "not json") (fun _ h => FileContent.noConfusion h)⟩

/-- C7 counterexample: the claimed uniqueness invariant fails — from the
empty store, two `create` requests with the same id (numeric `1`, coerced to
`"1"`) yield a reachable collection holding two records with the same `id`
string, since `dbcreate` performs no collision check. -/
theorem c7_counterexample :
    ¬ uniqueIds (runOps (DB.init .absent)
        [.create [("id", JVal.jint 1)], .create [("id", JVal.jint 1)]]).db := by
  decide

/-- C7 amended: in every collection reachable from an empty store by
create/update/delete requests, every record carries an `id` field whose
value is a string (numeric ids are coerced to string on write); uniqueness
of ids is not guaranteed. -/
theorem c7_amended_string_ids (s : DB) (hs : s.db = []) (ops : List Op) :
    stringIds (runOps s ops).db := by
  apply stringIds_runOps
  rw [hs]
  intro r hr
  exact absurd hr (List.not_mem_nil r)

/-- Witness for the amended C7: one create with a numeric id. -/
theorem c7_witness :
    stringIds (runOps ⟨[], .absent⟩ [.create [("id", JVal.jint 1)]]).db :=
  c7_amended_string_ids ⟨[], .absent⟩ rfl [.create [("id", JVal.jint 1)]]

/-- C8 counterexample: on a collection containing a record with id `"1"`
(twice — duplicates are reachable, see `c7_counterexample`), the second of
two consecutive `delete("1")` calls reports status ok, not err, and changes
the store state again, deleting the second copy. -/
theorem c8_counterexample :
    DB.dbdelete ⟨[[("id", JVal.jstr "1")], [("id", JVal.jstr "1")]],
                 .stored [[("id", JVal.jstr "1")], [("id", JVal.jstr "1")]]⟩ (.jstr "1") =
      .ok (⟨[[("id", JVal.jstr "1")]], .stored [[("id", JVal.jstr "1")]]⟩,
           ⟨"ok", "Annotation deleted successfully"⟩) ∧
    DB.dbdelete ⟨[[("id", JVal.jstr "1")]], .stored [[("id", JVal.jstr "1")]]⟩ (.jstr "1") =
      .ok (⟨[], .stored []⟩, ⟨"ok", "Annotation deleted successfully"⟩) :=
  ⟨rfl, rfl⟩

/-- C8 amended: for every well-formed collection containing exactly one
record with the given id, calling delete twice in a row makes the second
call report status err and hand back, unchanged, the exact store state left
by the first deletion. -/
theorem c8_amended_delete_idempotent (s : DB) (id : JVal)
    (hids : allHaveId s.db)
    (hone : countMatches s.db (pyStr id) = 1) :
    ∃ s1, (∃ res1 : DBResult, DB.dbdelete s id = .ok (s1, res1) ∧ res1.status = "ok") ∧
      DB.dbdelete s1 id = .ok (s1, ⟨"err", "Error in deleting annotation"⟩) := by
  cases hfm : firstMatch s.db (pyStr id) with
  | none =>
    have h0 : countMatches s.db (pyStr id) = 0 :=
      (countMatches_eq_zero_iff _ _).mpr ((firstMatch_eq_none_iff _ _).mp hfm)
    omega
  | some i =>
    refine ⟨⟨s.db.eraseIdx i, .stored (s.db.eraseIdx i)⟩,
            ⟨⟨"ok", "Annotation deleted successfully"⟩, ?_, rfl⟩, ?_⟩
    · simp [DB.dbdelete, findIdx_eq_firstMatch s.db (pyStr id) hids, hfm, DB.dbwrite]
    · have hids1 : allHaveId (s.db.eraseIdx i) :=
        fun r hr => hids r (List.mem_of_mem_eraseIdx hr)
      have hc := countMatches_eraseIdx s.db (pyStr id) i hfm
      have h0 : countMatches (s.db.eraseIdx i) (pyStr id) = 0 := by omega
      have hn : firstMatch (s.db.eraseIdx i) (pyStr id) = none :=
        (firstMatch_eq_none_iff _ _).mpr ((countMatches_eq_zero_iff _ _).mp h0)
      simp [DB.dbdelete, findIdx_eq_firstMatch (s.db.eraseIdx i) (pyStr id) hids1, hn]

/-- Witness for the amended C8. -/
theorem c8_witness :
    ∃ s1, (∃ res1 : DBResult,
        DB.dbdelete ⟨[[("id", JVal.jstr "1")]], .stored [[("id", JVal.jstr "1")]]⟩ (.jstr "1") =
          .ok (s1, res1) ∧ res1.status = "ok") ∧
      DB.dbdelete s1 (.jstr "1") = .ok (s1, ⟨"err", "Error in deleting annotation"⟩) :=
  c8_amended_delete_idempotent
    ⟨[[("id", JVal.jstr "1")]], .stored [[("id", JVal.jstr "1")]]⟩ (.jstr "1")
    (by decide) (by decide)

/-- C9: `dbcreate` has no failure result value — whenever it returns a
result, that result carries status ok, so the POST handler's branch mapping
a store-level err status to HTTP 400 is unreachable; only a raised exception
(a body without an `id` key) produces a non-ok response, through the 500
path. -/
theorem c9_create_always_ok (s : DB) (body : Record) :
    (∀ s2 res, DB.dbcreate s body = .ok (s2, res) → res.status = "ok") ∧
    (∀ b, (createAnnotationHandler s body).2 ≠ .jsonErr400 b) ∧
    (∀ e, DB.dbcreate s body = .error e →
      (createAnnotationHandler s body).2 = .jsonErr500 (pyErrMessage e)) := by
  cases hg : Record.get body "id" with
  | none =>
    refine ⟨?_, ?_, ?_⟩
    · intro s2 res h
      simp [DB.dbcreate, hg] at h
    · intro b
      simp [createAnnotationHandler, DB.dbcreate, hg]
    · intro e he
      simp only [DB.dbcreate, hg] at he
      injection he with he2
      simp [createAnnotationHandler, DB.dbcreate, hg, he2]
  | some v =>
    refine ⟨?_, ?_, ?_⟩
    · intro s2 res h
      simp [DB.dbcreate, hg] at h
      obtain ⟨_, hres⟩ := h
      rw [← hres]
    · intro b
      simp [createAnnotationHandler, DB.dbcreate, hg]
    · intro e he
      simp [DB.dbcreate, hg] at he

/-- Witness for C9: a body with an id never hits 400; a body without an id
goes to the 500 path. -/
theorem c9_witness :
    ((createAnnotationHandler ⟨[], .absent⟩ [("id", JVal.jint 1)]).2 ≠
      .jsonErr400 ⟨"err", "whatever"⟩) ∧
    ((createAnnotationHandler ⟨[], .absent⟩ []).2 =
      .jsonErr500 (pyErrMessage (.keyError "id"))) :=
  ⟨(c9_create_always_ok ⟨[], .absent⟩ [("id", JVal.jint 1)]).2.1 ⟨"err", "whatever"⟩,
   (c9_create_always_ok ⟨[], .absent⟩ []).2.2 (.keyError "id") rfl⟩

/-- C10: at heap level, `dbcreate` and a successful `dbupdate` mutate the
caller-supplied record object in place — the object at the caller's address
`a` has its `id` field overwritten with the string-coerced id — and then
store the address `a` itself (not a copy) in the collection, so the stored
record aliases the caller's argument; every field other than `id` of the
object is left unchanged. -/
theorem c10_aliasing (st : HStore) (a : Nat) (id : JVal)
    (ha : a < st.heap.length) :
    (∀ v, Record.get (deref st.heap a) "id" = some v →
      hcreate st a =
        .ok ({ heap := st.heap.set a (Record.set (deref st.heap a) "id" (.jstr (pyStr v))),
               db := st.db ++ [a] },
             ⟨"ok", "Annotation created successfully"⟩) ∧
      deref (st.heap.set a (Record.set (deref st.heap a) "id" (.jstr (pyStr v)))) a =
        Record.set (deref st.heap a) "id" (.jstr (pyStr v)) ∧
      ∀ k, k ≠ "id" →
        Record.get (Record.set (deref st.heap a) "id" (.jstr (pyStr v))) k =
          Record.get (deref st.heap a) k) ∧
    (∀ idx, hfindIdx st.heap st.db (pyStr id) = .ok (some idx) →
      hupdate st id a =
        .ok ({ heap := st.heap.set a (Record.set (deref st.heap a) "id" (.jstr (pyStr id))),
               db := st.db.set idx a },
             ⟨"ok", "Annotation updated successfully"⟩) ∧
      deref (st.heap.set a (Record.set (deref st.heap a) "id" (.jstr (pyStr id)))) a =
        Record.set (deref st.heap a) "id" (.jstr (pyStr id)) ∧
      ∀ k, k ≠ "id" →
        Record.get (Record.set (deref st.heap a) "id" (.jstr (pyStr id))) k =
          Record.get (deref st.heap a) k) := by
  constructor
  · intro v hv
    refine ⟨?_, ?_, ?_⟩
    · simp [hcreate, hv]
    · simp [deref, List.getD_eq_getElem?_getD, List.getElem?_set_self, ha]
    · intro k hk
      exact Record.get_set_ne _ _ _ _ hk
  · intro idx hfi
    refine ⟨?_, ?_, ?_⟩
    · simp [hupdate, hfi]
    · simp [deref, List.getD_eq_getElem?_getD, List.getElem?_set_self, ha]
    · intro k hk
      exact Record.get_set_ne _ _ _ _ hk

/-- Witness for C10: one heap object, referenced both by the caller and by
the collection. -/
theorem c10_witness :
    (hcreate ⟨[[("id", JVal.jstr "1")]], [0]⟩ 0 =
      .ok ({ heap := [[("id", JVal.jstr "1")]].set 0
               (Record.set (deref [[("id", JVal.jstr "1")]] 0) "id"
                 (.jstr (pyStr (.jstr "1")))),
             db := [0] ++ [0] },
           ⟨"ok", "Annotation created successfully"⟩)) ∧
    (hupdate ⟨[[("id", JVal.jstr "1")]], [0]⟩ (.jstr "1") 0 =
      .ok ({ heap := [[("id", JVal.jstr "1")]].set 0
               (Record.set (deref [[("id", JVal.jstr "1")]] 0) "id"
                 (.jstr (pyStr (.jstr "1")))),
             db := [0].set 0 0 },
           ⟨"ok", "Annotation updated successfully"⟩)) :=
  ⟨((c10_aliasing ⟨[[("id", JVal.jstr "1")]], [0]⟩ 0 (.jstr "1") (by decide)).1
      (.jstr "1") rfl).1,
   ((c10_aliasing ⟨[[("id", JVal.jstr "1")]], [0]⟩ 0 (.jstr "1") (by decide)).2
      0 rfl).1⟩

end OpenLimeDB
